import Mathlib

/-!
Verification of the notesapp orchestration layer (src/src/App.jsx).

The component is a thin single-threaded orchestrator: four async operations
(`withImageUrl`, `fetchNotes`, `createNote`, `deleteNote`) sequence calls to
three external collaborators (a persistence service, an object store, and a
logger) and update in-memory UI state (notes collection, form buffer, pending
file, loading flag).

Shallow embedding: every `await` suspends until the collaborator answers, and
the code runs on one logical thread, so each operation is a pure function from
the current state and an environment (an oracle fixing the outcome of every
collaborator call) to the next state together with a trace of collaborator
calls and loading-flag writes, listed in the order the code issues them.
Because each call is awaited, an event earlier in the trace corresponds to a
call that completed before the later call was issued.  Errors thrown by
collaborators are values of the environment (`Except.error`); the operations
are total functions, mirroring the try/catch wrappers that keep failures from
propagating to the caller.  Optional/nullable JS fields are `Option`s.
-/

namespace NotesApp

/-- Failure raised by the structured-record persistence service. -/
abbrev ServiceError := String

/-- Failure raised by the binary object store. -/
abbrev StorageError := String

/-- A note record: `id` is assigned by the persistence service, `image` is the
optional object-store key, `imageUrl` is the derived, non-persisted signed URL
set only by hydration. -/
structure Note where
  id : Option String
  name : String
  description : String
  image : Option String
  imageUrl : Option String
  deriving DecidableEq, Repr

/-- The form buffer (`formState` in the source): pending name and description. -/
structure FormState where
  name : String
  description : String
  deriving DecidableEq, Repr

/-- A locally selected file: original file name and MIME content type. -/
structure LocalFile where
  name : String
  type : String
  deriving DecidableEq, Repr

/-- The orchestrator's in-memory state: the notes collection, the form buffer,
the pending file reference, and the busy/loading flag. -/
structure AppState where
  notes : List Note
  formState : FormState
  file : Option LocalFile
  loading : Bool
  deriving DecidableEq, Repr

/-- Oracle fixing the outcome of every collaborator call the code can make:
`getUrlResult key` is the signed-URL request, `listResult` the list request,
`createResult name description image` the record creation (returning the
server-created note), `deleteResult id` the record deletion,
`uploadResult key` the object upload, `removeResult key` the object removal,
and `now` the current timestamp read by `Date.now()`. -/
structure Env where
  getUrlResult : String → Except StorageError String
  listResult : Except ServiceError (List Note)
  createResult : String → String → Option String → Except ServiceError Note
  deleteResult : String → Except ServiceError Unit
  uploadResult : String → Except StorageError Unit
  removeResult : String → Except StorageError Unit
  now : Nat

/-- One entry of the observable trace: a collaborator call (recorded with its
arguments, at the position the code issues it) or a write to the busy flag. -/
inductive Event where
  | setLoading (b : Bool)
  | listNotes
  | getUrl (key : String)
  | upload (key : String)
  | create (name description : String) (image : Option String)
  | deleteRecord (id : String)
  | removeObject (key : String)
  deriving DecidableEq, Repr

/-- JS `String.prototype.trim`: strip leading and trailing whitespace (this
executable form replaces the library's non-reducing `String.trim`). -/
def trimName (s : String) : String :=
  String.mk
    (((s.data.dropWhile Char.isWhitespace).reverse.dropWhile
        Char.isWhitespace).reverse)

/-- `withImageUrl(note)` from the source: if the note has no image key it is
returned unchanged with no call issued; otherwise a signed URL is requested
for the key, and on success a copy with `imageUrl` set is returned, while on
failure the error is logged and the note is returned unchanged. -/
def withImageUrl (env : Env) (note : Note) : Note × List Event :=
  match note.image with
  | none => (note, [])
  | some key =>
    match env.getUrlResult key with
    | Except.ok href => ({ note with imageUrl := some href }, [Event.getUrl key])
    | Except.error _ => (note, [Event.getUrl key])

/-- `fetchNotes()` from the source: sets loading, requests the list, hydrates
every returned note, replaces the collection with the hydrated result; on a
list failure it only logs; the `finally` block always clears loading. -/
def fetchNotes (env : Env) (s : AppState) : AppState × List Event :=
  match env.listResult with
  | Except.error _ =>
    ({ s with loading := false },
     [Event.setLoading true, Event.listNotes, Event.setLoading false])
  | Except.ok data =>
    let hydrated := data.map (withImageUrl env)
    ({ s with notes := hydrated.map Prod.fst, loading := false },
     Event.setLoading true :: Event.listNotes ::
       ((hydrated.map Prod.snd).flatten ++ [Event.setLoading false]))

/-- The object-store key generated for an upload in `createNote`:
`images/${Date.now()}-${file.name}`. -/
def uploadKey (now : Nat) (f : LocalFile) : String :=
  "images/" ++ toString now ++ "-" ++ f.name

/-- Tail of `createNote` after the optional upload: the record-creation call
with the form buffer's name and description and the uploaded key if any; on
success the form buffer and file are cleared, the created note is hydrated
and prepended; on failure only a log; loading is always cleared.  `evs` is
the trace accumulated before this point. -/
def createNoteRest (env : Env) (s : AppState) (imageKey : Option String)
    (evs : List Event) : AppState × List Event :=
  match env.createResult s.formState.name s.formState.description imageKey with
  | Except.error _ =>
    ({ s with loading := false },
     evs ++ [Event.create s.formState.name s.formState.description imageKey,
             Event.setLoading false])
  | Except.ok created =>
    let hydrated := withImageUrl env created
    ({ s with notes := hydrated.fst :: s.notes,
              formState := { name := "", description := "" },
              file := none,
              loading := false },
     evs ++ (Event.create s.formState.name s.formState.description imageKey ::
             (hydrated.snd ++ [Event.setLoading false])))

/-- `createNote(e)` from the source: if the form name is blank after trimming,
return immediately (before setting loading, with no call); otherwise set
loading, upload the pending file (if any) under a fresh key and await
completion — an upload failure skips the rest (only the `finally` clearing of
loading runs) — then run the record creation via `createNoteRest`. -/
def createNote (env : Env) (s : AppState) : AppState × List Event :=
  if trimName s.formState.name = "" then (s, [])
  else
    match s.file with
    | some f =>
      match env.uploadResult (uploadKey env.now f) with
      | Except.error _ =>
        ({ s with loading := false },
         [Event.setLoading true, Event.upload (uploadKey env.now f),
          Event.setLoading false])
      | Except.ok _ =>
        createNoteRest env s (some (uploadKey env.now f))
          [Event.setLoading true, Event.upload (uploadKey env.now f)]
    | none => createNoteRest env s none [Event.setLoading true]

/-- `deleteNote(note)` from the source: no-op when the note has no identifier;
otherwise set loading, request record deletion by identifier; on its failure
only log (collection untouched); on success, if the note has an image key
request its removal (its own failure only logged), then remove the note from
the collection by identifier; loading is always cleared. -/
def deleteNote (env : Env) (s : AppState) (note : Note) : AppState × List Event :=
  match note.id with
  | none => (s, [])
  | some nid =>
    match env.deleteResult nid with
    | Except.error _ =>
      ({ s with loading := false },
       [Event.setLoading true, Event.deleteRecord nid, Event.setLoading false])
    | Except.ok _ =>
      ({ s with notes := s.notes.filter (fun n => n.id != some nid),
                loading := false },
       Event.setLoading true :: Event.deleteRecord nid ::
         ((match note.image with
           | some key => [Event.removeObject key]
           | none => ([] : List Event)) ++ [Event.setLoading false]))

/-- Recognises an upload event in a trace. -/
def isUploadEv : Event → Bool
  | Event.upload _ => true
  | _ => false

/-- Sample environment in which every collaborator call succeeds. -/
def envOk : Env where
  getUrlResult := fun k => Except.ok ("https://signed.example/" ++ k)
  listResult := Except.ok []
  createResult := fun n d i =>
    Except.ok { id := some "srv-1", name := n, description := d,
                image := i, imageUrl := none }
  deleteResult := fun _ => Except.ok ()
  uploadResult := fun _ => Except.ok ()
  removeResult := fun _ => Except.ok ()
  now := 1700000000000

/-- Sample environment in which every collaborator call fails. -/
def envFail : Env where
  getUrlResult := fun _ => Except.error "storage down"
  listResult := Except.error "service down"
  createResult := fun _ _ _ => Except.error "service down"
  deleteResult := fun _ => Except.error "service down"
  uploadResult := fun _ => Except.error "storage down"
  removeResult := fun _ => Except.error "storage down"
  now := 1700000000000

/-- Sample note carrying an image key. -/
def noteWithImage : Note :=
  { id := some "n1", name := "Trip", description := "Fun",
    image := some "images/7-cat.png", imageUrl := none }

/-- Sample note without an image key. -/
def noteNoImage : Note :=
  { id := some "n2", name := "Plain", description := "", image := none,
    imageUrl := none }

/-- Sample selected file. -/
def fileSample : LocalFile := { name := "cat.png", type := "image/png" }

/-- Sample state: one note held, a filled form with surrounding whitespace in
the name, and a selected file. -/
def stateSample : AppState :=
  { notes := [noteWithImage],
    formState := { name := " Trip ", description := "Fun" },
    file := some fileSample,
    loading := false }

/-- Sample state with no file selected. -/
def stateNoFile : AppState :=
  { stateSample with file := none }

/-- Sample state whose form name is whitespace only. -/
def stateBlankName : AppState :=
  { stateSample with formState := { name := "   ", description := "Fun" } }

/-- C8: a note without an image key is returned unchanged by hydration and no
object-store call is issued (the trace is empty). -/
theorem withImageUrl_no_key_unchanged (env : Env) (n : Note)
    (him : n.image = none) :
    withImageUrl env n = (n, []) := by
  simp [withImageUrl, him]

/-- Witness for C8 at a concrete note: hydration leaves `noteNoImage`
unchanged and issues no call. -/
theorem withImageUrl_no_key_unchanged_witness :
    noteNoImage.image = none ∧ withImageUrl envOk noteNoImage = (noteNoImage, []) :=
  ⟨rfl, withImageUrl_no_key_unchanged envOk noteNoImage rfl⟩

/-- C7: for a note with image key `k` for which the object store answers the
signed-URL request with `u`, hydration returns a note whose `imageUrl` is `u`
and whose identifier, name, description and image key are those of the
input. -/
theorem withImageUrl_success_fields (env : Env) (n : Note) (k u : String)
    (him : n.image = some k) (hu : env.getUrlResult k = Except.ok u) :
    (withImageUrl env n).fst.imageUrl = some u ∧
    (withImageUrl env n).fst.id = n.id ∧
    (withImageUrl env n).fst.name = n.name ∧
    (withImageUrl env n).fst.description = n.description ∧
    (withImageUrl env n).fst.image = n.image := by
  simp [withImageUrl, him, hu]

/-- Witness for C7 at a concrete note and environment. -/
theorem withImageUrl_success_fields_witness :
    noteWithImage.image = some "images/7-cat.png" ∧
    envOk.getUrlResult "images/7-cat.png" =
      Except.ok "https://signed.example/images/7-cat.png" ∧
    (withImageUrl envOk noteWithImage).fst.imageUrl =
      some "https://signed.example/images/7-cat.png" :=
  ⟨rfl, rfl,
   (withImageUrl_success_fields envOk noteWithImage "images/7-cat.png"
     "https://signed.example/images/7-cat.png" rfl rfl).1⟩

/-- C9: for a note with an image key whose signed-URL request fails, hydration
returns the note unchanged (so still without an `imageUrl`), the failure does
not propagate (the function is total and answers normally), and the trace
shows the single issued call. -/
theorem withImageUrl_failure_unchanged (env : Env) (n : Note) (k : String)
    (e : StorageError) (him : n.image = some k)
    (hu : env.getUrlResult k = Except.error e) :
    withImageUrl env n = (n, [Event.getUrl k]) := by
  simp [withImageUrl, him, hu]

/-- Witness for C9 at a concrete note and a failing environment. -/
theorem withImageUrl_failure_unchanged_witness :
    noteWithImage.image = some "images/7-cat.png" ∧
    envFail.getUrlResult "images/7-cat.png" = Except.error "storage down" ∧
    withImageUrl envFail noteWithImage =
      (noteWithImage, [Event.getUrl "images/7-cat.png"]) :=
  ⟨rfl, rfl,
   withImageUrl_failure_unchanged envFail noteWithImage "images/7-cat.png"
     "storage down" rfl rfl⟩

/-- C4: when the form name is empty or whitespace only (blank after trimming),
`createNote` returns before doing anything: the state — collection, form
buffer, pending file, loading flag — is exactly the input state and the trace
is empty (no collaborator call, not even a loading-flag write). -/
theorem createNote_blank_name_noop (env : Env) (s : AppState)
    (h : trimName s.formState.name = "") :
    createNote env s = (s, []) := by
  simp [createNote, h]

/-- Witness for C4 at a concrete whitespace-only form name. -/
theorem createNote_blank_name_noop_witness :
    trimName stateBlankName.formState.name = "" ∧
    createNote envOk stateBlankName = (stateBlankName, []) :=
  ⟨by decide, createNote_blank_name_noop envOk stateBlankName (by decide)⟩

/-- Helper: whatever the record-creation outcome, `createNoteRest` leaves the
loading flag false. -/
theorem createNoteRest_loading_false (env : Env) (s : AppState)
    (ik : Option String) (evs : List Event) :
    (createNoteRest env s ik evs).fst.loading = false := by
  unfold createNoteRest
  split <;> simp

/-- Helper: `createNoteRest` only appends to the accumulated trace, so the
first trace entry is the accumulator's first entry. -/
theorem createNoteRest_head (env : Env) (s : AppState) (ik : Option String)
    (e : Event) (rest : List Event) :
    (createNoteRest env s ik (e :: rest)).snd.head? = some e := by
  unfold createNoteRest
  split <;> simp

/-- Helper: hydration only ever issues signed-URL requests. -/
theorem withImageUrl_events_getUrl (env : Env) (note : Note) :
    ∀ e ∈ (withImageUrl env note).snd, ∃ k, e = Event.getUrl k := by
  unfold withImageUrl
  split
  · simp
  · split <;> simp

/-- C2: deleting a note that has an identifier and an image key, when the
record deletion succeeds, issues an object-store remove call for that key and
removes the note from the local collection by identifier — for every
environment, hence regardless of how the remove call itself answers. -/
theorem deleteNote_success_removes (env : Env) (s : AppState) (note : Note)
    (i k : String) (hid : note.id = some i) (him : note.image = some k)
    (hdel : env.deleteResult i = Except.ok ()) :
    Event.removeObject k ∈ (deleteNote env s note).snd ∧
    (deleteNote env s note).fst.notes =
      s.notes.filter (fun n => n.id != some i) ∧
    ∀ n ∈ (deleteNote env s note).fst.notes, n.id ≠ some i := by
  refine ⟨?_, ?_, ?_⟩ <;> simp [deleteNote, hid, hdel, him]

/-- Witness for C2 at a concrete note, state and all-success environment. -/
theorem deleteNote_success_removes_witness :
    noteWithImage.id = some "n1" ∧
    noteWithImage.image = some "images/7-cat.png" ∧
    envOk.deleteResult "n1" = Except.ok () ∧
    (Event.removeObject "images/7-cat.png" ∈
        (deleteNote envOk stateSample noteWithImage).snd ∧
     (deleteNote envOk stateSample noteWithImage).fst.notes =
        stateSample.notes.filter (fun n => n.id != some "n1") ∧
     ∀ n ∈ (deleteNote envOk stateSample noteWithImage).fst.notes,
        n.id ≠ some "n1") :=
  ⟨rfl, rfl, rfl,
   deleteNote_success_removes envOk stateSample noteWithImage "n1"
     "images/7-cat.png" rfl rfl rfl⟩

/-- C3: when the primary collaborator call fails — the list request in
`fetchNotes`, the record deletion in `deleteNote` — the local collection is
exactly unchanged; no error propagates (both operations are total and answer
normally). -/
theorem failure_leaves_collection_unchanged (env : Env) (s : AppState)
    (note : Note) (i : String) (e1 e2 : ServiceError)
    (hl : env.listResult = Except.error e1) (hid : note.id = some i)
    (hdel : env.deleteResult i = Except.error e2) :
    (fetchNotes env s).fst.notes = s.notes ∧
    (deleteNote env s note).fst.notes = s.notes := by
  constructor
  · simp [fetchNotes, hl]
  · simp [deleteNote, hid, hdel]

/-- Witness for C3 at a concrete state and all-failure environment. -/
theorem failure_leaves_collection_unchanged_witness :
    envFail.listResult = Except.error "service down" ∧
    noteWithImage.id = some "n1" ∧
    envFail.deleteResult "n1" = Except.error "service down" ∧
    ((fetchNotes envFail stateSample).fst.notes = stateSample.notes ∧
     (deleteNote envFail stateSample noteWithImage).fst.notes =
       stateSample.notes) :=
  ⟨rfl, rfl, rfl,
   failure_leaves_collection_unchanged envFail stateSample noteWithImage "n1"
     "service down" "service down" rfl rfl rfl⟩

/-- Helper: hydration can change only the `imageUrl` field; identifier, name,
description and image key always come through unchanged. -/
theorem withImageUrl_preserves_fields (env : Env) (n : Note) :
    (withImageUrl env n).fst.id = n.id ∧
    (withImageUrl env n).fst.name = n.name ∧
    (withImageUrl env n).fst.description = n.description ∧
    (withImageUrl env n).fst.image = n.image := by
  unfold withImageUrl
  split
  · simp
  · split <;> simp

/-- C5: every successful create — non-blank name, the record creation
succeeding, and the upload succeeding whenever a file is pending (otherwise
the creation call is never reached) — clears the form buffer and the pending
file reference and prepends the hydrated created note; the image key passed
to the creation is the generated upload key when a file was pending and
nothing otherwise, and by the persistence contract assumed in the hypotheses
the created note echoes it and carries the server-assigned identifier and the
given name and description, so the collection's first element does too, with
no image key and no imageUrl when no file was selected; all previously held
notes remain after it. -/
theorem createNote_success_prepends (env : Env) (s : AppState) (created : Note)
    (i : String) (hn : trimName s.formState.name ≠ "")
    (hup : ∀ f, s.file = some f →
      env.uploadResult (uploadKey env.now f) = Except.ok ())
    (hc : env.createResult s.formState.name s.formState.description
        (s.file.map fun f => uploadKey env.now f) = Except.ok created)
    (hcid : created.id = some i) (hcn : created.name = s.formState.name)
    (hcd : created.description = s.formState.description)
    (hcimg : created.image = s.file.map fun f => uploadKey env.now f)
    (hcu : created.imageUrl = none) :
    (createNote env s).fst.formState = { name := "", description := "" } ∧
    (createNote env s).fst.file = none ∧
    (createNote env s).fst.notes = (withImageUrl env created).fst :: s.notes ∧
    ∃ c, (createNote env s).fst.notes.head? = some c ∧ c.id = some i ∧
      c.name = s.formState.name ∧ c.description = s.formState.description ∧
      (s.file = none → c.image = none ∧ c.imageUrl = none) := by
  have hpres := withImageUrl_preserves_fields env created
  have hmain : (createNote env s).fst.formState =
      { name := "", description := "" } ∧
      (createNote env s).fst.file = none ∧
      (createNote env s).fst.notes =
        (withImageUrl env created).fst :: s.notes := by
    rcases hf : s.file with _ | f
    · rw [hf] at hc
      simp only [Option.map_none'] at hc
      simp [createNote, hn, hf, createNoteRest, hc]
    · rw [hf] at hc
      simp only [Option.map_some'] at hc
      simp [createNote, hn, hf, hup f hf, createNoteRest, hc]
  refine ⟨hmain.1, hmain.2.1, hmain.2.2,
    (withImageUrl env created).fst, ?_, ?_, ?_, ?_, ?_⟩
  · simp [hmain.2.2]
  · rw [hpres.1, hcid]
  · rw [hpres.2.1, hcn]
  · rw [hpres.2.2.1, hcd]
  · intro hfn
    rw [hfn] at hcimg
    simp only [Option.map_none'] at hcimg
    have hunch : withImageUrl env created = (created, []) := by
      simp [withImageUrl, hcimg]
    rw [hunch]
    exact ⟨hcimg, hcu⟩

/-- Sample note echoing the with-file create call answered by `envOk`. -/
def createdSample : Note :=
  { id := some "srv-1", name := " Trip ", description := "Fun",
    image := some (uploadKey envOk.now fileSample), imageUrl := none }

/-- Witness for C5 at a concrete state with a pending file and all-success
environment: the pending file really is cleared and the prepended note
carries the uploaded key. -/
theorem createNote_success_prepends_witness :
    trimName stateSample.formState.name ≠ "" ∧
    stateSample.file = some fileSample ∧
    envOk.createResult stateSample.formState.name
        stateSample.formState.description
        (stateSample.file.map fun f => uploadKey envOk.now f) =
      Except.ok createdSample ∧
    ((createNote envOk stateSample).fst.formState =
        { name := "", description := "" } ∧
     (createNote envOk stateSample).fst.file = none ∧
     (createNote envOk stateSample).fst.notes =
        (withImageUrl envOk createdSample).fst :: stateSample.notes ∧
     ∃ c, (createNote envOk stateSample).fst.notes.head? = some c ∧
       c.id = some "srv-1" ∧ c.name = stateSample.formState.name ∧
       c.description = stateSample.formState.description ∧
       (stateSample.file = none → c.image = none ∧ c.imageUrl = none)) :=
  ⟨by decide, rfl, rfl,
   createNote_success_prepends envOk stateSample createdSample "srv-1"
     (by decide) (fun _ _ => rfl) rfl rfl rfl rfl rfl rfl⟩

/-- C6: for each operation that passes its precondition (`fetchNotes`
unconditionally, `createNote` with a non-blank name, `deleteNote` with an
identifier), the very first trace entry — so before any collaborator call —
is the write setting the busy flag true, and after the operation completes
the flag is false, whatever the environment (success or failure paths
alike). -/
theorem busy_flag_spans_operations (env : Env) (s : AppState) (note : Note)
    (i : String) (hn : trimName s.formState.name ≠ "")
    (hid : note.id = some i) :
    ((fetchNotes env s).snd.head? = some (Event.setLoading true) ∧
     (fetchNotes env s).fst.loading = false) ∧
    ((createNote env s).snd.head? = some (Event.setLoading true) ∧
     (createNote env s).fst.loading = false) ∧
    ((deleteNote env s note).snd.head? = some (Event.setLoading true) ∧
     (deleteNote env s note).fst.loading = false) := by
  refine ⟨?_, ?_, ?_⟩
  · cases hl : env.listResult <;> simp [fetchNotes, hl]
  · rcases hf : s.file with _ | f
    · rw [createNote, if_neg hn, hf]
      exact ⟨createNoteRest_head env s none _ _,
        createNoteRest_loading_false env s none _⟩
    · rw [createNote, if_neg hn, hf]
      rcases hu : env.uploadResult (uploadKey env.now f) with e | u
      · simp [hu]
      · simp only [hu]
        exact ⟨createNoteRest_head env s _ _ _,
          createNoteRest_loading_false env s _ _⟩
  · rw [deleteNote, hid]
    rcases hd : env.deleteResult i with e | u <;> simp [hd]

/-- Witness for C6 at a concrete state, note and environment. -/
theorem busy_flag_spans_operations_witness :
    trimName stateSample.formState.name ≠ "" ∧
    noteWithImage.id = some "n1" ∧
    (((fetchNotes envOk stateSample).snd.head? =
        some (Event.setLoading true) ∧
      (fetchNotes envOk stateSample).fst.loading = false) ∧
     ((createNote envOk stateSample).snd.head? =
        some (Event.setLoading true) ∧
      (createNote envOk stateSample).fst.loading = false) ∧
     ((deleteNote envOk stateSample noteWithImage).snd.head? =
        some (Event.setLoading true) ∧
      (deleteNote envOk stateSample noteWithImage).fst.loading = false)) :=
  ⟨by decide, rfl,
   busy_flag_spans_operations envOk stateSample noteWithImage "n1"
     (by decide) rfl⟩

/-- C10: when the name passes the trim check, every record-creation call in
the trace carries the form buffer's name and description exactly as entered —
trimming is used only in the guard, never applied to the sent value. -/
theorem createNote_sends_untrimmed_name (env : Env) (s : AppState)
    (hn : trimName s.formState.name ≠ "") :
    ∀ n d ik, Event.create n d ik ∈ (createNote env s).snd →
      n = s.formState.name ∧ d = s.formState.description := by
  intro n d ik hmem
  rw [createNote, if_neg hn] at hmem
  have rest : ∀ ik2 evs, (∀ e ∈ evs, ¬ ∃ n2 d2 i2, e = Event.create n2 d2 i2) →
      Event.create n d ik ∈ (createNoteRest env s ik2 evs).snd →
      n = s.formState.name ∧ d = s.formState.description := by
    intro ik2 evs hevs hm
    unfold createNoteRest at hm
    rcases hcr : env.createResult s.formState.name s.formState.description ik2
      with e | created <;> rw [hcr] at hm <;> simp at hm
    · rcases hm with hm | ⟨hn2, hd2, _⟩
      · exact absurd ⟨n, d, ik, rfl⟩ (hevs _ hm)
      · exact ⟨hn2, hd2⟩
    · rcases hm with hm | ⟨hn2, hd2, _⟩ | hm
      · exact absurd ⟨n, d, ik, rfl⟩ (hevs _ hm)
      · exact ⟨hn2, hd2⟩
      · rcases withImageUrl_events_getUrl env created _ hm with ⟨k2, hk2⟩
        simp at hk2
  rcases hf : s.file with _ | f
  · rw [hf] at hmem
    exact rest none _ (by simp) hmem
  · rw [hf] at hmem
    rcases hu : env.uploadResult (uploadKey env.now f) with e | u
    · simp [hu] at hmem
    · simp only [hu] at hmem
      exact rest _ _ (by simp) hmem

/-- Witness for C10: with the name entered as the padded string, the create
call carries it verbatim. -/
theorem createNote_sends_untrimmed_name_witness :
    trimName stateNoFile.formState.name ≠ "" ∧
    Event.create " Trip " "Fun" none ∈ (createNote envOk stateNoFile).snd ∧
    (∀ n d ik, Event.create n d ik ∈ (createNote envOk stateNoFile).snd →
      n = stateNoFile.formState.name ∧ d = stateNoFile.formState.description) :=
  ⟨by decide, by decide,
   createNote_sends_untrimmed_name envOk stateNoFile (by decide)⟩

/-- Helper: the trace of hydration is empty for a keyless note and exactly
one signed-URL request otherwise. -/
theorem withImageUrl_trace (env : Env) (note : Note) :
    (withImageUrl env note).snd =
      match note.image with
      | none => []
      | some k => [Event.getUrl k] := by
  unfold withImageUrl
  split
  · rfl
  · split <;> rfl

/-- C1: with a file selected and a non-blank name, the trace of `createNote`
contains exactly one upload call, and every record-creation call in the trace
occurs strictly after that upload — each call being awaited, the upload has
completed before the creation is issued — and carries exactly the uploaded
key as its image key. -/
theorem createNote_single_upload_before_create (env : Env) (s : AppState)
    (f : LocalFile) (hf : s.file = some f)
    (hn : trimName s.formState.name ≠ "") :
    (createNote env s).snd.countP isUploadEv = 1 ∧
    ∀ i n d ik, (createNote env s).snd[i]? = some (Event.create n d ik) →
      ik = some (uploadKey env.now f) ∧
      ∃ j : Nat, j < i ∧ (createNote env s).snd[j]? =
        some (Event.upload (uploadKey env.now f)) := by
  rw [createNote, if_neg hn, hf]
  rcases hu : env.uploadResult (uploadKey env.now f) with e | u
  · simp only [hu]
    refine ⟨rfl, ?_⟩
    intro i n d ik h
    rcases i with _ | _ | _ | i <;> simp at h
  · simp only [hu]
    rw [createNoteRest]
    rcases hc : env.createResult s.formState.name s.formState.description
        (some (uploadKey env.now f)) with e2 | created
    · simp only [hc]
      refine ⟨rfl, ?_⟩
      intro i n d ik h
      rcases i with _ | _ | _ | _ | i <;> simp at h
      exact ⟨h.2.2.symm, 1, by omega, rfl⟩
    · simp only [hc, withImageUrl_trace]
      rcases him : created.image with _ | k2 <;> simp only [him]
      · refine ⟨rfl, ?_⟩
        intro i n d ik h
        rcases i with _ | _ | _ | _ | i <;> simp at h
        exact ⟨h.2.2.symm, 1, by omega, rfl⟩
      · refine ⟨rfl, ?_⟩
        intro i n d ik h
        rcases i with _ | _ | _ | _ | _ | i <;> simp at h
        exact ⟨h.2.2.symm, 1, by omega, rfl⟩

/-- Witness for C1 at a concrete state with a selected file and all-success
environment. -/
theorem createNote_single_upload_before_create_witness :
    stateSample.file = some fileSample ∧
    trimName stateSample.formState.name ≠ "" ∧
    ((createNote envOk stateSample).snd.countP isUploadEv = 1 ∧
     ∀ i n d ik,
       (createNote envOk stateSample).snd[i]? = some (Event.create n d ik) →
       ik = some (uploadKey envOk.now fileSample) ∧
       ∃ j : Nat, j < i ∧ (createNote envOk stateSample).snd[j]? =
         some (Event.upload (uploadKey envOk.now fileSample))) :=
  ⟨rfl, by decide,
   createNote_single_upload_before_create envOk stateSample fileSample rfl
     (by decide)⟩

end NotesApp
